import Mathlib

/-!
Verification of the file-arranger core (rule-driven planning / execution / undo).

A shallow embedding of `src/arranger.py` (the planning, execution and undo engine
of the *file-arranger* repository) together with proofs of the specification
claims about it.

Modelling conventions:

* `pathlib.Path` values are embedded as `PyPath`: an absoluteness flag plus the
  list of normalized path components (pathlib drops empty and `"."` components).
* The filesystem is embedded as an explicit state `FS`: a list of existing
  entries, each a path paired with a kind (file or directory).  `rglob`
  enumerates the entries lying strictly below a root, in the stored order.
* Fallible OS operations (`mkdir`, `Path.resolve`, `shutil.move`) are driven by
  an explicit failure oracle `Env`, indexed by the item position in the batch,
  which says whether the OS raises for that call and with which exception name.
  A successful `shutil.move` is a pure state update (source removed,
  destination added); a move of a non-existing source raises
  `FileNotFoundError`.
* Python string truthiness (`if raw_tgt:`, `if move_to:`) is `truthyStr`.
-/

set_option autoImplicit false

namespace Arranger

/-- Lower-case a string, as Python `str.lower` does on ASCII data. -/
def strLower (s : String) : String :=
  String.mk (s.data.map Char.toLower)

/-- Python truthiness of an optional string: `None` and `""` are falsy. -/
def truthyStr : Option String → Bool
  | none => false
  | some s => s != ""

/-- Embedding of a `pathlib.Path`: absoluteness flag and normalized parts. -/
structure PyPath where
  isAbs : Bool
  parts : List String
deriving DecidableEq, Repr

/-- Path division `p / q`: an absolute right operand replaces the left one. -/
def PyPath.join (p q : PyPath) : PyPath :=
  if q.isAbs then q else ⟨p.isAbs, p.parts ++ q.parts⟩

/-- Split a character list at `/` separators. -/
def splitSlashAux : List Char → List Char → List (List Char)
  | [], acc => [acc.reverse]
  | c :: rest, acc =>
      if c = '/' then acc.reverse :: splitSlashAux rest []
      else splitSlashAux rest (c :: acc)

/-- Parsing `Path(s)` of a POSIX string: leading `/` means absolute; empty and `"."`
components are dropped by pathlib's normalization. -/
def parsePath (s : String) : PyPath :=
  { isAbs := s.data.head? == some '/'
    parts := ((splitSlashAux s.data []).map (fun cs => String.mk cs)).filter
      (fun c => c != "" && c != ".") }

/-- Division `p / s` where the right operand is a string (pathlib parses it). -/
def PyPath.div (p : PyPath) (s : String) : PyPath :=
  p.join (parsePath s)

/-- Rendering `str(p)` of a POSIX path. -/
def PyPath.render (p : PyPath) : String :=
  if p.isAbs then "/" ++ String.intercalate "/" p.parts
  else if p.parts.isEmpty then "." else String.intercalate "/" p.parts

/-- The name `p.name`: the final component (`""` for a root or the empty path). -/
def PyPath.name (p : PyPath) : String :=
  (p.parts.getLast?).getD ""

/-- The parent `p.parent`: drop the final component. -/
def PyPath.parent (p : PyPath) : PyPath :=
  ⟨p.isAbs, p.parts.dropLast⟩

/-- Renaming `p.with_name(s)`: replace the final component. -/
def PyPath.withName (p : PyPath) (s : String) : PyPath :=
  ⟨p.isAbs, p.parts.dropLast ++ [s]⟩

/-- The test `t in f.parents`: `t` is a proper lexical ancestor of `f`
(pathlib's `parents` is exactly the list of proper prefixes). -/
def PyPath.inParents (t f : PyPath) : Bool :=
  t.isAbs == f.isAbs && f.parts.take t.parts.length == t.parts
    && t.parts.length != f.parts.length

/-- Index of the last occurrence of `c`, if any (Python `str.rfind`). -/
def lastIdxOf (c : Char) : List Char → Option Nat
  | [] => none
  | x :: xs =>
      match lastIdxOf c xs with
      | some j => some (j + 1)
      | none => if x = c then some 0 else none

/-- pathlib's stem/suffix split of a file name: the suffix starts at the last
dot, provided that dot is neither the first nor the last character. -/
def splitExt (n : String) : String × String :=
  let cs := n.data
  match lastIdxOf '.' cs with
  | some i =>
      if 0 < i ∧ i < cs.length - 1 then (String.mk (cs.take i), String.mk (cs.drop i))
      else (n, "")
  | none => (n, "")

/-- The stem `p.stem` of the final component. -/
def PyPath.stem (p : PyPath) : String := (splitExt p.name).1

/-- The suffix `p.suffix` of the final component. -/
def PyPath.suffix (p : PyPath) : String := (splitExt p.name).2

/-! ## Configuration and target resolution (`_resolve_target`) -/

/-- One rule of `rules.yaml`: `name`, `match.ext`, `action.move_to`; any of the
keys may be missing in the YAML mapping. -/
structure Rule where
  name : Option String
  ext : List String
  moveTo : Option String
deriving DecidableEq, Repr

/-- The loaded configuration: optional `target` string plus the rule list. -/
structure Config where
  target : Option String
  rules : List Rule
deriving DecidableEq, Repr

/-- Embedding of `_resolve_target`: the organization root from the source root and the
`target` setting (absent/empty → `src / "Organized"`; relative → joined under
`src`; absolute → unchanged). -/
def resolveTarget (src : PyPath) (rawTgt : Option String) : PyPath :=
  if truthyStr rawTgt then
    let tgt := parsePath (rawTgt.getD "")
    if !tgt.isAbs then src.join tgt else tgt
  else
    src.join (parsePath "Organized")

/-! ## The planner (`start_arranging`) -/

/-- The lower-cased extension set `{e.lower() for e in r.get("match",{}).get("ext",[])}`. -/
def Rule.extsLower (r : Rule) : List String :=
  r.ext.map strLower

/-- The planner's per-rule guard `exts and move_to and f.suffix.lower() in exts`. -/
def Rule.matchesFile (r : Rule) (f : PyPath) : Bool :=
  !r.extsLower.isEmpty && truthyStr r.moveTo && r.extsLower.contains (strLower f.suffix)

/-- The planner's inner loop: the first rule that matches `f` wins
(`break` after the first match). -/
def chooseRule : List Rule → PyPath → Option Rule
  | [], _ => none
  | r :: rs, f => if r.matchesFile f then some r else chooseRule rs f

/-- One entry of the plan: `(f, dest, rule name)`. -/
structure PlanItem where
  src : PyPath
  dest : PyPath
  ruleName : String
deriving DecidableEq, Repr

/-- The plan entry for one file: destination `tgt / move_to / f.name`, rule
name defaulted to `"rule"`, or nothing when no rule matches. -/
def planFile (tgt : PyPath) (rules : List Rule) (f : PyPath) : Option PlanItem :=
  match chooseRule rules f with
  | some r => some ⟨f, ((tgt.div (r.moveTo.getD "")).div f.name), r.name.getD "rule"⟩
  | none => none

/-- Kind of a filesystem entry. -/
inductive EntryKind where
  | file
  | dir
deriving DecidableEq, Repr

/-- The filesystem state: existing entries (path and kind) in traversal order. -/
structure FS where
  entries : List (PyPath × EntryKind)
deriving DecidableEq, Repr

/-- The walk `root.rglob("*")`: every entry lying strictly below `root`, in stored order. -/
def FS.rglob (fs : FS) (root : PyPath) : List (PyPath × EntryKind) :=
  fs.entries.filter (fun e => root.inParents e.1)

/-- The planning pass of `start_arranging`: walk the tree, skip non-files and
anything already inside the target subtree, and keep the first-matching-rule
entry for each remaining file.  The filesystem is threaded through unchanged:
planning only reads it. -/
def startArranging (cfg : Config) (folder : PyPath) (fs : FS) :
    List PlanItem × FS :=
  let tgt := resolveTarget folder cfg.target
  let planned := (fs.rglob folder).filterMap (fun e =>
    if e.2 = EntryKind.dir then none
    else if tgt.inParents e.1 then none
    else planFile tgt cfg.rules e.1)
  (planned, fs)

/-! ## Collision avoidance (the two `while candidate.exists()` loops)

Both the executor and the undo engine avoid overwriting by trying
`f"{stem} ({i}){suffix}"` (respectively `f"{stem} (undone {i}){suffix}"`) for
`i = 1, 2, ...` until a non-existing path is found.  The two inlined loops are
embedded as one function `findAvail`, parametrized by the token `mid` placed
before the number (`""` for the forward run, `"undone "` for undo).  The loop
terminates because the filesystem is finite; the fuel `entries.length + 1`
suffices, as proved below. -/

/-- The test `p.exists()` against the filesystem state. -/
def FS.existsP (fs : FS) (p : PyPath) : Bool :=
  fs.entries.any (fun e => e.1 == p)

/-- The candidate file name `f"{stem} ({mid}{i}){suffix}"`. -/
def variantName (stem mid sfx : String) (i : Nat) : String :=
  stem ++ " (" ++ mid ++ Nat.repr i ++ ")" ++ sfx

/-- The candidate path `dstf.with_name` applied to the candidate name. -/
def variantPath (dstf : PyPath) (mid : String) (i : Nat) : PyPath :=
  dstf.withName (variantName dstf.stem mid dstf.suffix i)

/-- The body of the collision loop, with explicit fuel and current index. -/
def findAvailAux (fs : FS) (dstf : PyPath) (mid : String) : Nat → Nat → PyPath
  | 0, i => variantPath dstf mid i
  | fuel + 1, i =>
      let c := variantPath dstf mid i
      if fs.existsP c then findAvailAux fs dstf mid fuel (i + 1) else c

/-- The collision loop: keep the desired path if it does not exist, otherwise
try numbered variants starting from `i = 1`. -/
def findAvail (fs : FS) (dstf : PyPath) (mid : String) : PyPath :=
  if fs.existsP dstf then findAvailAux fs dstf mid (fs.entries.length + 1) 1
  else dstf

/-! ### Injectivity of decimal rendering

The loop's termination argument needs that distinct indices give distinct
candidate names, which reduces to injectivity of `Nat.repr`.  We relate
`Nat.repr` to a reference rendering `decRepr` and decode it back. -/

/-- Reference decimal rendering, used to reason about `Nat.repr`. -/
def decRepr (n : Nat) : List Char :=
  if _h : n < 10 then [Nat.digitChar n]
  else decRepr (n / 10) ++ [Nat.digitChar (n % 10)]
decreasing_by exact Nat.div_lt_self (by omega) (by omega)

/-! ## Filesystem mutation primitives -/

/-- All prefixes of a path, shortest first (used by `mkdir(parents=True)`). -/
def PyPath.prefixes (p : PyPath) : List PyPath :=
  (List.range (p.parts.length + 1)).map (fun k => ⟨p.isAbs, p.parts.take k⟩)

/-- Create a single directory if it is not there yet. -/
def FS.mkdirOne (fs : FS) (d : PyPath) : FS :=
  if fs.existsP d then fs else ⟨fs.entries ++ [(d, EntryKind.dir)]⟩

/-- Recursive creation `d.mkdir(parents=True, exist_ok=True)`: create `d` and its ancestors. -/
def FS.mkdirParents (fs : FS) (d : PyPath) : FS :=
  d.prefixes.foldl FS.mkdirOne fs

/-- Remove the entry at a path (a successful move takes the source away). -/
def FS.remove (fs : FS) (p : PyPath) : FS :=
  ⟨fs.entries.filter (fun e => e.1 != p)⟩

/-- Add a file at a path (a successful move materializes the destination). -/
def FS.addFile (fs : FS) (p : PyPath) : FS :=
  ⟨fs.entries ++ [(p, EntryKind.file)]⟩

/-! ## The executor (`apply_moves`) -/

/-- An OS exception raised by `shutil.move`: Python type name and message. -/
structure MoveErr where
  errName : String
  msg : String
deriving DecidableEq, Repr

/-- Failure oracle for one batch: for the item at a given position, whether
`mkdir` raises (and with which exception name), whether `Path.resolve` raises
`FileNotFoundError`, and whether `shutil.move` raises an OS-level error. -/
structure Env where
  ts : String
  mkdirErr : Nat → Option String
  resolveRaises : Nat → Bool
  moveErr : Nat → Option MoveErr

/-- Accumulator of `apply_moves`' loop: filesystem, counters, the undo ledger
under construction (`session_moves`) and the writes to the log file. -/
structure ExecState where
  fs : FS
  moved : Nat
  skipped : List String
  failed : List (String × String)
  sessionMoves : List (PyPath × PyPath)
  log : List String
deriving DecidableEq, Repr

/-- The log line `f"MOVED\t{srcf} -> {candidate}\n"`. -/
def movedLine (src cand : String) : String :=
  "MOVED\t" ++ src ++ " -> " ++ cand ++ "\n"

/-- The log line `f"SKIPPED\t{srcf}\n"` (note: no destination path). -/
def skippedLine (src : String) : String :=
  "SKIPPED\t" ++ src ++ "\n"

/-- The log line `f"FAILED\t{srcf} -> {candidate} ({type(e).__name__}: {e})\n"`. -/
def failedLine (src cand n m : String) : String :=
  "FAILED\t" ++ src ++ " -> " ++ cand ++ " (" ++ n ++ ": " ++ m ++ ")\n"

/-- One iteration of `apply_moves`' loop on plan item `it` at position `idx`.
`mkdir` is called *outside* the `try`, so its exception propagates: this is the
`Except.error` branch, carrying the state accumulated so far.  The `resolve`
comparison is guarded by `except FileNotFoundError: pass`, and the move itself
by `except Exception`. -/
def execItem (env : Env) (idx : Nat) (st : ExecState) (it : PlanItem) :
    Except ExecState ExecState :=
  match env.mkdirErr idx with
  | some _ => Except.error st
  | none =>
    if !env.resolveRaises idx && it.src == it.dest then
      Except.ok { st with
        fs := st.fs.mkdirParents it.dest.parent
        skipped := st.skipped ++ [it.src.name]
        log := st.log ++ [skippedLine it.src.render] }
    else
      match env.moveErr idx with
      | some e =>
          Except.ok { st with
            fs := st.fs.mkdirParents it.dest.parent
            failed := st.failed ++ [(it.src.name, e.errName)]
            log := st.log ++ [failedLine it.src.render
              (findAvail (st.fs.mkdirParents it.dest.parent) it.dest "").render
              e.errName e.msg] }
      | none =>
          if (st.fs.mkdirParents it.dest.parent).existsP it.src then
            Except.ok { st with
              fs := ((st.fs.mkdirParents it.dest.parent).remove it.src).addFile
                (findAvail (st.fs.mkdirParents it.dest.parent) it.dest "")
              moved := st.moved + 1
              sessionMoves := st.sessionMoves ++
                [(findAvail (st.fs.mkdirParents it.dest.parent) it.dest "", it.src)]
              log := st.log ++ [movedLine it.src.render
                (findAvail (st.fs.mkdirParents it.dest.parent) it.dest "").render] }
          else
            Except.ok { st with
              fs := st.fs.mkdirParents it.dest.parent
              failed := st.failed ++ [(it.src.name, "FileNotFoundError")]
              log := st.log ++ [failedLine it.src.render
                (findAvail (st.fs.mkdirParents it.dest.parent) it.dest "").render
                "FileNotFoundError" ""] }

/-- The loop of `apply_moves` over the whole plan.  An uncaught `mkdir` exception
aborts the remainder of the batch. -/
def execFold (env : Env) : Nat → ExecState → List PlanItem → Except ExecState ExecState
  | _, st, [] => Except.ok st
  | idx, st, it :: rest =>
      match execItem env idx st it with
      | Except.error st1 => Except.error st1
      | Except.ok st1 => execFold env (idx + 1) st1 rest

/-- The module-level mutable state of the program: the filesystem, the pending
plan (`PLANNED`), the undo ledger (`LAST_MOVES`) and the selected folder. -/
structure AppState where
  fs : FS
  planned : List PlanItem
  lastMoves : List (PyPath × PyPath)
  selectedFolder : PyPath
deriving DecidableEq, Repr

/-- What one `apply_moves` call reports: whether it ran at all (it returns
early on an empty plan), whether an uncaught exception aborted it, the log
artifact path and its content, and the counters. -/
structure ApplyReport where
  ran : Bool
  aborted : Bool
  logPath : Option PyPath
  log : List String
  moved : Nat
  skipped : List String
  failed : List (String × String)
deriving DecidableEq, Repr

/-- Embedding of `apply_moves`.  On a nonempty plan it opens a timestamp-named log, writes
the header, runs the loop, then writes the summary footer, publishes the new
ledger (`LAST_MOVES = session_moves`) and clears `PLANNED`.  When the loop
aborts (uncaught `mkdir` exception) the footer is never written, the ledger is
left as it was and the plan is not cleared. -/
def applyMoves (env : Env) (st : AppState) : AppState × ApplyReport :=
  if st.planned.isEmpty then
    (st, ⟨false, false, none, [], 0, [], []⟩)
  else
    match execFold env 0
        ⟨st.fs, 0, [], [], [],
          ["[Apply] " ++ env.ts ++ "\nSource: " ++ st.selectedFolder.render ++ "\n\n"]⟩
        st.planned with
    | Except.error part =>
        ({ st with fs := part.fs },
         ⟨true, true, some ((parsePath "logs").div ("arranger_" ++ env.ts ++ ".txt")),
          part.log, part.moved, part.skipped, part.failed⟩)
    | Except.ok fin =>
        ({ fs := fin.fs
           planned := []
           lastMoves := fin.sessionMoves
           selectedFolder := st.selectedFolder },
         ⟨true, false, some ((parsePath "logs").div ("arranger_" ++ env.ts ++ ".txt")),
          fin.log ++ ["\nSUMMARY\n",
            "Moved: " ++ Nat.repr fin.moved ++ "  Skipped: " ++
              Nat.repr fin.skipped.length ++ "  Failed: " ++
              Nat.repr fin.failed.length ++ "\n"],
          fin.moved, fin.skipped, fin.failed⟩)

/-! ## The undo engine (`undo_moves`) -/

/-- Outcome of one undo item.  `restored` carries the path the file was moved
back to and, as ghost data for specification purposes, whether the original
path existed at processing time (deciding between the exact original and an
`"(undone N)"` variant). -/
inductive UndoOutcome where
  | restored (dst : PyPath) (origExisted : Bool)
  | failedU (errName : String)
deriving DecidableEq, Repr

/-- Accumulator of `undo_moves`' loop, with the processed entries and their
outcomes recorded in processing order. -/
structure UndoState where
  fs : FS
  restored : Nat
  failed : List (String × String)
  items : List ((PyPath × PyPath) × UndoOutcome)
deriving DecidableEq, Repr

/-- One iteration of `undo_moves`' loop on ledger entry
`(final_path, original_path)` at position `idx`.  Here the whole body —
`mkdir`, the collision loop, `shutil.move` — is inside the `try`, so every
failure is caught and collected. -/
def undoItem (env : Env) (idx : Nat) (st : UndoState)
    (entry : PyPath × PyPath) : UndoState :=
  match env.mkdirErr idx with
  | some e =>
      { st with
        failed := st.failed ++ [(entry.1.name, e)]
        items := st.items ++ [(entry, UndoOutcome.failedU e)] }
  | none =>
    match env.moveErr idx with
    | some e =>
        { st with
          fs := st.fs.mkdirParents entry.2.parent
          failed := st.failed ++ [(entry.1.name, e.errName)]
          items := st.items ++ [(entry, UndoOutcome.failedU e.errName)] }
    | none =>
        if (st.fs.mkdirParents entry.2.parent).existsP entry.1 then
          { st with
            fs := ((st.fs.mkdirParents entry.2.parent).remove entry.1).addFile
              (findAvail (st.fs.mkdirParents entry.2.parent) entry.2 "undone ")
            restored := st.restored + 1
            items := st.items ++
              [(entry, UndoOutcome.restored
                (findAvail (st.fs.mkdirParents entry.2.parent) entry.2 "undone ")
                ((st.fs.mkdirParents entry.2.parent).existsP entry.2))] }
        else
          { st with
            fs := st.fs.mkdirParents entry.2.parent
            failed := st.failed ++ [(entry.1.name, "FileNotFoundError")]
            items := st.items ++ [(entry, UndoOutcome.failedU "FileNotFoundError")] }

/-- The loop of `undo_moves` over the reversed ledger. -/
def undoFold (env : Env) : Nat → UndoState → List (PyPath × PyPath) → UndoState
  | _, st, [] => st
  | idx, st, entry :: rest => undoFold env (idx + 1) (undoItem env idx st entry) rest

/-- What one `undo_moves` call reports. -/
structure UndoReport where
  nothingToUndo : Bool
  restored : Nat
  failed : List (String × String)
  items : List ((PyPath × PyPath) × UndoOutcome)
deriving DecidableEq, Repr

/-- Embedding of `undo_moves`: a no-op report on an empty ledger; otherwise process the
ledger in reverse order and clear it (`LAST_MOVES.clear()`) unconditionally. -/
def undoMoves (env : Env) (st : AppState) : AppState × UndoReport :=
  if st.lastMoves.isEmpty then
    (st, ⟨true, 0, [], []⟩)
  else
    ({ st with fs := (undoFold env 0 ⟨st.fs, 0, [], []⟩ st.lastMoves.reverse).fs
               lastMoves := [] },
     ⟨false, (undoFold env 0 ⟨st.fs, 0, [], []⟩ st.lastMoves.reverse).restored,
      (undoFold env 0 ⟨st.fs, 0, [], []⟩ st.lastMoves.reverse).failed,
      (undoFold env 0 ⟨st.fs, 0, [], []⟩ st.lastMoves.reverse).items⟩)

/-- Specification-side shape of the one log line written for a processed item:
tagged `MOVED`, `SKIPPED` or `FAILED`, and carrying the item's source path
(`MOVED`/`FAILED` lines also carry the resolved destination, `FAILED` lines an
error classification). -/
def lineForItem (it : PlanItem) (line : String) : Prop :=
  (∃ d, line = movedLine it.src.render d) ∨
  line = skippedLine it.src.render ∨
  (∃ d n m, line = failedLine it.src.render d n m)

/-- Specification-side description of one undo outcome: a restored entry went
back exactly to its original path when that path was free, and to an
`"(undone N)"` variant of the original path when the original was taken. -/
def undoOutcomeOK (entry : PyPath × PyPath) (out : UndoOutcome) : Prop :=
  ∀ p b, out = UndoOutcome.restored p b →
    (b = false → p = entry.2) ∧
    (b = true → ∃ i, 1 ≤ i ∧ p = variantPath entry.2 "undone " i)

/-! ## Theorems: decimal rendering and the collision loop -/

theorem toDigitsCore_eq_decRepr (fuel : Nat) :
    ∀ n ds, 0 < fuel → n < 10 ^ fuel →
      Nat.toDigitsCore 10 fuel n ds = decRepr n ++ ds := by
  induction fuel with
  | zero => intro n ds h; omega
  | succ fuel ih =>
      intro n ds _ hlt
      show (if n / 10 = 0 then Nat.digitChar (n % 10) :: ds
            else Nat.toDigitsCore 10 fuel (n / 10) (Nat.digitChar (n % 10) :: ds))
          = decRepr n ++ ds
      by_cases hn : n < 10
      · have h0 : n / 10 = 0 := Nat.div_eq_of_lt hn
        rw [if_pos h0, decRepr, dif_pos hn, Nat.mod_eq_of_lt hn]
        rfl
      · have h0 : n / 10 ≠ 0 := by
          intro h
          have := Nat.div_eq_of_lt (show n < 10 by omega) ▸ h
          omega
        rw [if_neg h0]
        have hfuel : 0 < fuel := by
          rcases Nat.eq_zero_or_pos fuel with h | h
          · subst h; simp at hlt; omega
          · exact h
        have hdiv : n / 10 < 10 ^ fuel := by
          have hmul : n < 10 * 10 ^ fuel := by
            rw [pow_succ] at hlt
            omega
          exact Nat.div_lt_of_lt_mul hmul
        rw [ih (n / 10) (Nat.digitChar (n % 10) :: ds) hfuel hdiv]
        conv_rhs => rw [decRepr]
        rw [dif_neg hn, List.append_assoc]
        rfl

theorem toDigits_eq_decRepr (n : Nat) : Nat.toDigits 10 n = decRepr n := by
  have h1 : n < 10 ^ (n + 1) := by
    calc n < 2 ^ n := Nat.lt_two_pow n
    _ ≤ 10 ^ n := Nat.pow_le_pow_left (by omega) n
    _ ≤ 10 ^ (n + 1) := Nat.pow_le_pow_right (by omega) (Nat.le_succ n)
  have := toDigitsCore_eq_decRepr (n + 1) n [] (Nat.succ_pos n) h1
  simpa [Nat.toDigits] using this

theorem digitChar_decode (n : Nat) (h : n < 10) : (Nat.digitChar n).toNat - 48 = n := by
  interval_cases n <;> rfl

theorem foldl_decRepr (n : Nat) :
    ∀ a, (decRepr n).foldl (fun a c => 10 * a + (c.toNat - 48)) a
      = a * 10 ^ (decRepr n).length + n := by
  induction n using Nat.strong_induction_on with
  | _ n ih =>
      intro a
      by_cases hn : n < 10
      · rw [decRepr, dif_pos hn]
        simp [List.foldl, digitChar_decode n hn]
        omega
      · rw [decRepr, dif_neg hn]
        have hd : n / 10 < n := Nat.div_lt_self (by omega) (by omega)
        rw [List.foldl_append, ih (n / 10) hd a]
        have hm : n % 10 < 10 := Nat.mod_lt n (by omega)
        simp [List.foldl, digitChar_decode (n % 10) hm, List.length_append]
        ring_nf
        have : 10 * (n / 10) + n % 10 = n := Nat.div_add_mod n 10
        omega

theorem decRepr_injective : Function.Injective decRepr := by
  intro m n h
  have hm := foldl_decRepr m 0
  have hn := foldl_decRepr n 0
  rw [h] at hm
  simpa [hn] using hm.symm

theorem natRepr_injective : Function.Injective Nat.repr := by
  intro m n h
  apply decRepr_injective
  rw [← toDigits_eq_decRepr, ← toDigits_eq_decRepr]
  exact congrArg String.data h

theorem variantName_injective (stem mid sfx : String) :
    Function.Injective (variantName stem mid sfx) := by
  intro i j h
  unfold variantName at h
  have hd := congrArg String.data h
  simp only [String.data_append] at hd
  have h1 : (Nat.repr i).data ++ (")".data ++ sfx.data)
      = (Nat.repr j).data ++ (")".data ++ sfx.data) := by
    have := hd
    repeat rw [List.append_assoc] at this
    exact List.append_cancel_left (List.append_cancel_left (List.append_cancel_left this))
  have h2 : (Nat.repr i).data = (Nat.repr j).data := List.append_cancel_right h1
  exact natRepr_injective (String.ext h2)

theorem variantPath_injective (dstf : PyPath) (mid : String) :
    Function.Injective (variantPath dstf mid) := by
  intro i j h
  unfold variantPath PyPath.withName at h
  have := congrArg PyPath.parts h
  simp only at this
  have hname := List.append_cancel_left this
  simp only [List.cons.injEq] at hname
  exact variantName_injective _ _ _ hname.1

theorem existsP_iff_mem (fs : FS) (p : PyPath) :
    fs.existsP p = true ↔ p ∈ fs.entries.map Prod.fst := by
  simp only [FS.existsP, List.any_eq_true, List.mem_map, beq_iff_eq]

/-- Pigeonhole: among the first `entries.length + 1` numbered variants of a
path, at least one does not exist on the (finite) filesystem. -/
theorem exists_free_variant (fs : FS) (dstf : PyPath) (mid : String) :
    ∃ j, 1 ≤ j ∧ j < fs.entries.length + 2 ∧
      fs.existsP (variantPath dstf mid j) = false := by
  by_contra hc
  push_neg at hc
  have hmem : ∀ k : Fin (fs.entries.length + 1),
      variantPath dstf mid (k.1 + 1) ∈ (fs.entries.map Prod.fst).toFinset := by
    intro k
    have h1 := hc (k.1 + 1) (by omega) (by omega)
    simp only [ne_eq, Bool.not_eq_false] at h1
    exact List.mem_toFinset.mpr ((existsP_iff_mem fs _).mp h1)
  have hinj : Function.Injective (fun k : Fin (fs.entries.length + 1) =>
      variantPath dstf mid (k.1 + 1)) := by
    intro a b hab
    have := variantPath_injective dstf mid hab
    exact Fin.ext (by omega)
  have hcard : (Finset.univ : Finset (Fin (fs.entries.length + 1))).card ≤
      (List.map Prod.fst fs.entries).toFinset.card :=
    Finset.card_le_card_of_injOn _ (fun a _ => hmem a)
      (fun a _ b _ hab => hinj hab)
  rw [Finset.card_univ, Fintype.card_fin] at hcard
  have hle : (fs.entries.map Prod.fst).toFinset.card ≤ fs.entries.length := by
    calc (fs.entries.map Prod.fst).toFinset.card ≤ (fs.entries.map Prod.fst).length :=
          (fs.entries.map Prod.fst).toFinset_card_le
    _ = fs.entries.length := List.length_map _ _
  omega

/-- The collision loop returns the first free variant at or after the start
index, provided some variant in fuel range is free. -/
theorem findAvailAux_spec (fs : FS) (dstf : PyPath) (mid : String) :
    ∀ fuel i,
      (∃ j, i ≤ j ∧ j < i + fuel ∧ fs.existsP (variantPath dstf mid j) = false) →
      ∃ j, i ≤ j ∧ findAvailAux fs dstf mid fuel i = variantPath dstf mid j ∧
        fs.existsP (variantPath dstf mid j) = false ∧
        ∀ k, i ≤ k → k < j → fs.existsP (variantPath dstf mid k) = true := by
  intro fuel
  induction fuel with
  | zero =>
      rintro i ⟨j, h1, h2, _⟩
      omega
  | succ fuel ih =>
      rintro i ⟨j, hij, hlt, hfree⟩
      simp only [findAvailAux]
      by_cases hcur : fs.existsP (variantPath dstf mid i) = true
      · rw [if_pos hcur]
        have hji : i ≠ j := by
          intro h
          rw [h] at hcur
          rw [hfree] at hcur
          exact Bool.false_ne_true hcur
        obtain ⟨j', h1', h2', h3', h4'⟩ := ih (i + 1) ⟨j, by omega, by omega, hfree⟩
        refine ⟨j', by omega, h2', h3', ?_⟩
        intro k hk1 hk2
        rcases Nat.eq_or_lt_of_le hk1 with h | h
        · rw [← h]; exact hcur
        · exact h4' k (by omega) hk2
      · rw [if_neg hcur]
        rw [Bool.not_eq_true] at hcur
        exact ⟨i, le_refl i, rfl, hcur, fun k hk1 hk2 => by omega⟩

/-- If the desired path is free, the loop keeps it unchanged. -/
theorem findAvail_of_free (fs : FS) (dstf : PyPath) (mid : String)
    (h : fs.existsP dstf = false) : findAvail fs dstf mid = dstf := by
  unfold findAvail
  rw [h]
  rfl

/-- If the desired path is taken, the loop returns the first free numbered
variant (`i = 1, 2, ...`). -/
theorem findAvail_of_taken (fs : FS) (dstf : PyPath) (mid : String)
    (h : fs.existsP dstf = true) :
    ∃ i, 1 ≤ i ∧ findAvail fs dstf mid = variantPath dstf mid i ∧
      fs.existsP (variantPath dstf mid i) = false ∧
      ∀ j, 1 ≤ j → j < i → fs.existsP (variantPath dstf mid j) = true := by
  obtain ⟨j, h1, h2, hfree⟩ := exists_free_variant fs dstf mid
  have hspec := findAvailAux_spec fs dstf mid (fs.entries.length + 1) 1
    ⟨j, h1, by omega, hfree⟩
  unfold findAvail
  rw [h]
  simpa using hspec

/-- The collision loop never returns an existing path. -/
theorem findAvail_free (fs : FS) (dstf : PyPath) (mid : String) :
    fs.existsP (findAvail fs dstf mid) = false := by
  by_cases h : fs.existsP dstf = true
  · obtain ⟨i, _, heq, hfree, _⟩ := findAvail_of_taken fs dstf mid h
    rw [heq]
    exact hfree
  · rw [Bool.not_eq_true] at h
    rw [findAvail_of_free fs dstf mid h]
    exact h

/-- The collision loop returns the desired path or one of its variants. -/
theorem findAvail_shape (fs : FS) (dstf : PyPath) (mid : String) :
    findAvail fs dstf mid = dstf ∨
      ∃ i, 1 ≤ i ∧ findAvail fs dstf mid = variantPath dstf mid i ∧
        fs.existsP dstf = true := by
  by_cases h : fs.existsP dstf = true
  · obtain ⟨i, h1, heq, _, _⟩ := findAvail_of_taken fs dstf mid h
    exact Or.inr ⟨i, h1, heq, h⟩
  · rw [Bool.not_eq_true] at h
    exact Or.inl (findAvail_of_free fs dstf mid h)

/-! ## Helper lemmas about the planner -/

/-- The planning loop is `List.find?` of the per-rule guard. -/
theorem chooseRule_eq_find (rules : List Rule) (f : PyPath) :
    chooseRule rules f = rules.find? (fun r => r.matchesFile f) := by
  induction rules with
  | nil => rfl
  | cons r rs ih =>
      rw [chooseRule]
      by_cases h : r.matchesFile f = true
      · simp [h]
      · rw [Bool.not_eq_true] at h
        simp [h, ih]

/-- For a rule whose `move_to` is present and nonempty, the full guard reduces
to membership of the file's lower-cased extension in the extension set. -/
theorem matchesFile_of_truthy (r : Rule) (f : PyPath)
    (h : truthyStr r.moveTo = true) :
    r.matchesFile f = r.extsLower.contains (strLower f.suffix) := by
  unfold Rule.matchesFile
  rw [h]
  cases hc : r.extsLower.contains (strLower f.suffix)
  · simp [hc]
  · have hne : r.extsLower ≠ [] := by
      intro hnil
      rw [hnil] at hc
      simp [List.contains] at hc
    simp [hc, List.isEmpty_iff, hne]

/-- The result of `find?` only depends on the values of the predicate on the list. -/
theorem find?_congr_on {α : Type} (p q : α → Bool) :
    ∀ l : List α, (∀ a ∈ l, p a = q a) → List.find? p l = List.find? q l := by
  intro l
  induction l with
  | nil => intro _; rfl
  | cons a l ih =>
      intro h
      have ha := h a (List.mem_cons_self a l)
      by_cases hp : p a = true
      · simp [hp, ha ▸ hp]
      · rw [Bool.not_eq_true] at hp
        simp [hp, ha ▸ hp, ih (fun b hb => h b (List.mem_cons_of_mem a hb))]

/-- A plan entry's source is the file it was planned for. -/
theorem planFile_src (tgt : PyPath) (rules : List Rule) (f : PyPath)
    (it : PlanItem) (h : planFile tgt rules f = some it) : it.src = f := by
  unfold planFile at h
  cases hc : chooseRule rules f with
  | none => rw [hc] at h; exact absurd h (by simp)
  | some r =>
      rw [hc] at h
      simp only [Option.some.injEq] at h
      rw [← h]

/-- The Boolean ancestry test means exactly: same absoluteness and the
candidate ancestor's components are a proper prefix of the path's. -/
theorem inParents_iff (t f : PyPath) :
    t.inParents f = true ↔
      t.isAbs = f.isAbs ∧ t.parts <+: f.parts ∧ t.parts ≠ f.parts := by
  unfold PyPath.inParents
  simp only [Bool.and_eq_true, beq_iff_eq, bne_iff_ne, ne_eq]
  constructor
  · rintro ⟨⟨habs, htake⟩, hlen⟩
    refine ⟨habs, ?_, ?_⟩
    · rw [List.prefix_iff_eq_take]
      exact htake.symm
    · intro heq
      rw [heq] at hlen
      exact hlen rfl
  · rintro ⟨habs, hpre, hne⟩
    refine ⟨⟨habs, ?_⟩, ?_⟩
    · exact (List.prefix_iff_eq_take.mp hpre).symm
    · intro hlen
      exact hne (List.IsPrefix.eq_of_length hpre hlen)

/-! ## Claims C3, C10, C4, C7, C8, C5 -/

/-- C3 — For every file considered by the Planner, rules are evaluated in
declared order and the first rule whose extension set contains the file's
lower-cased extension produces the file's single plan entry (evaluation stops
at that rule); a file whose extension is contained in no rule's extension set
produces no plan entry at all.  (Stated for well-formed rule sets, where every
rule carries a `move_to` action as the spec's data model requires; the planner
produces at most one entry per file by construction — `planFile` is an
`Option`.) -/
theorem claim_C3_first_match_wins (tgt : PyPath) (rules : List Rule) (f : PyPath)
    (hwf : ∀ r ∈ rules, truthyStr r.moveTo = true) :
    planFile tgt rules f =
      (rules.find? (fun r => r.extsLower.contains (strLower f.suffix))).map
        (fun r => ⟨f, (tgt.div (r.moveTo.getD "")).div f.name, r.name.getD "rule"⟩) := by
  unfold planFile
  rw [chooseRule_eq_find,
    find?_congr_on _ _ rules (fun r hr => matchesFile_of_truthy r f (hwf r hr))]
  cases List.find? (fun r => r.extsLower.contains (strLower f.suffix)) rules <;> rfl

/-- C3 witness: on the spec's example scenario (rules `img`/`doc`, file
`a.jpg`), the hypotheses hold and the plan entry comes from the first rule. -/
theorem claim_C3_first_match_wins_witness :
    (∀ r ∈ [(⟨some "img", [".jpg"], some "Images"⟩ : Rule),
            ⟨some "doc", [".jpg"], some "Docs"⟩], truthyStr r.moveTo = true) ∧
    planFile (parsePath "/s/Organized")
        [⟨some "img", [".jpg"], some "Images"⟩, ⟨some "doc", [".jpg"], some "Docs"⟩]
        (parsePath "/s/a.jpg")
      = (List.find? (fun r => r.extsLower.contains (strLower (parsePath "/s/a.jpg").suffix))
          [(⟨some "img", [".jpg"], some "Images"⟩ : Rule),
           ⟨some "doc", [".jpg"], some "Docs"⟩]).map
          (fun r => ⟨parsePath "/s/a.jpg",
            (((parsePath "/s/Organized").div (r.moveTo.getD "")).div
              (parsePath "/s/a.jpg").name), r.name.getD "rule"⟩) := by
  refine ⟨by decide, claim_C3_first_match_wins _ _ _ (by decide)⟩

/-- C10 — A rule is passed over during planning, with evaluation continuing to
later rules, when it lacks a (truthy) `move_to` action: deleting such a rule
from anywhere in the list never changes the planner's output, and when no rule
fully matches, the file is excluded (`none`) rather than reported as an
error. -/
theorem claim_C10_moveto_required (tgt : PyPath) (f : PyPath)
    (pre post : List Rule) (r0 : Rule) (h : truthyStr r0.moveTo = false) :
    planFile tgt (pre ++ r0 :: post) f = planFile tgt (pre ++ post) f ∧
    (chooseRule (pre ++ post) f = none → planFile tgt (pre ++ r0 :: post) f = none) := by
  have hmf : r0.matchesFile f = false := by
    unfold Rule.matchesFile
    rw [h]
    simp
  have hch : chooseRule (pre ++ r0 :: post) f = chooseRule (pre ++ post) f := by
    induction pre with
    | nil =>
        show chooseRule (r0 :: post) f = chooseRule post f
        rw [chooseRule, if_neg (by simp [hmf])]
    | cons r rs ih =>
        show chooseRule (r :: (rs ++ r0 :: post)) f = chooseRule (r :: (rs ++ post)) f
        by_cases hr : r.matchesFile f = true
        · rw [chooseRule, if_pos hr, chooseRule, if_pos hr]
        · rw [chooseRule, if_neg hr, chooseRule, if_neg hr]
          exact ih
  constructor
  · unfold planFile
    rw [hch]
  · intro hnone
    unfold planFile
    rw [hch, hnone]

/-- C10 witness: a first rule matching `.jpg` but with no `move_to` is skipped
and the second rule produces the entry. -/
theorem claim_C10_moveto_required_witness :
    truthyStr (Rule.moveTo ⟨some "broken", [".jpg"], none⟩) = false ∧
    planFile (parsePath "/t")
        ([] ++ (⟨some "broken", [".jpg"], none⟩ : Rule) ::
          [⟨some "img", [".jpg"], some "Images"⟩]) (parsePath "/s/a.jpg")
      = planFile (parsePath "/t") ([] ++ [⟨some "img", [".jpg"], some "Images"⟩])
          (parsePath "/s/a.jpg") := by
  refine ⟨by decide, (claim_C10_moveto_required _ _ [] _ _ (by decide)).1⟩

/-- C4 — No file whose path lies inside the organization-root subtree (the
resolved target is a proper lexical ancestor of the file) ever appears in the
plan produced by the Planner. -/
theorem claim_C4_no_self_reprocessing (cfg : Config) (folder : PyPath) (fs : FS)
    (it : PlanItem) (hmem : it ∈ (startArranging cfg folder fs).1) :
    ¬((resolveTarget folder cfg.target).isAbs = it.src.isAbs ∧
      (resolveTarget folder cfg.target).parts <+: it.src.parts ∧
      (resolveTarget folder cfg.target).parts ≠ it.src.parts) := by
  intro hin
  unfold startArranging at hmem
  simp only [List.mem_filterMap] at hmem
  obtain ⟨e, he, hsome⟩ := hmem
  by_cases hdir : e.2 = EntryKind.dir
  · rw [if_pos hdir] at hsome
    exact absurd hsome (by simp)
  · rw [if_neg hdir] at hsome
    by_cases hpar : (resolveTarget folder cfg.target).inParents e.1 = true
    · rw [if_pos hpar] at hsome
      exact absurd hsome (by simp)
    · rw [if_neg hpar] at hsome
      have hsrc := planFile_src _ _ _ _ hsome
      rw [← hsrc] at hpar
      exact hpar ((inParents_iff _ _).mpr hin)

/-- C4 witness: a file already sitting under `/s/Organized` never makes it
into the plan — instantiated on a tree where `/s/Organized/Images/old.jpg`
exists and would match the rule. -/
theorem claim_C4_no_self_reprocessing_witness :
    (⟨parsePath "/s/a.jpg",
      parsePath "/s/Organized/Images/a.jpg", "img"⟩ : PlanItem) ∈
      (startArranging ⟨none, [⟨some "img", [".jpg"], some "Images"⟩]⟩
        (parsePath "/s")
        ⟨[(parsePath "/s/a.jpg", EntryKind.file),
          (parsePath "/s/Organized/Images/old.jpg", EntryKind.file)]⟩).1 ∧
    ¬((resolveTarget (parsePath "/s") none).isAbs =
        (parsePath "/s/a.jpg").isAbs ∧
      (resolveTarget (parsePath "/s") none).parts <+: (parsePath "/s/a.jpg").parts ∧
      (resolveTarget (parsePath "/s") none).parts ≠ (parsePath "/s/a.jpg").parts) := by
  refine ⟨by decide, claim_C4_no_self_reprocessing
    ⟨none, [⟨some "img", [".jpg"], some "Images"⟩]⟩ (parsePath "/s")
    ⟨[(parsePath "/s/a.jpg", EntryKind.file),
      (parsePath "/s/Organized/Images/old.jpg", EntryKind.file)]⟩
    ⟨parsePath "/s/a.jpg", parsePath "/s/Organized/Images/a.jpg", "img"⟩
    (by decide)⟩

/-- C7 — Planning is side-effect-free and idempotent: the planner returns the
filesystem it was given unchanged, and planning again on the filesystem state
left behind by a first planning call yields the identical ordered plan. -/
theorem claim_C7_planning_pure (cfg : Config) (folder : PyPath) (fs : FS) :
    (startArranging cfg folder fs).2 = fs ∧
    (startArranging cfg folder ((startArranging cfg folder fs).2)).1 =
      (startArranging cfg folder fs).1 :=
  ⟨rfl, rfl⟩

/-- C8 — The resolved organization root is `sourceRoot / "Organized"` when the
target setting is absent, `sourceRoot` joined with the setting when it parses
to a relative path, and the setting unchanged when it parses to an absolute
path.  `resolveTarget` is a total pure function: no I/O, no failure modes. -/
theorem claim_C8_target_resolution (src : PyPath) (s : String) :
    resolveTarget src none = ⟨src.isAbs, src.parts ++ ["Organized"]⟩ ∧
    (s ≠ "" → (parsePath s).isAbs = false →
      resolveTarget src (some s) = ⟨src.isAbs, src.parts ++ (parsePath s).parts⟩) ∧
    ((parsePath s).isAbs = true → resolveTarget src (some s) = parsePath s) := by
  refine ⟨?_, ?_, ?_⟩
  · unfold resolveTarget truthyStr
    simp only [Bool.false_eq_true, if_false]
    have : parsePath "Organized" = ⟨false, ["Organized"]⟩ := by decide
    rw [this, PyPath.join]
    simp
  · intro hne habs
    unfold resolveTarget truthyStr
    rw [if_pos (by simp [hne])]
    simp only [Option.getD_some, habs]
    rw [if_pos (by simp [habs]), PyPath.join, if_neg (by simp [habs])]
  · intro habs
    have hne : s ≠ "" := by
      intro h
      rw [h] at habs
      exact absurd habs (by decide)
    unfold resolveTarget truthyStr
    rw [if_pos (by simp [hne])]
    simp only [Option.getD_some, habs]
    rw [if_neg (by simp [habs])]

/-- C8 witness: concrete source root `/home/u` with a relative setting
`Sorted/Sub` and an absolute setting `/abs/t`. -/
theorem claim_C8_target_resolution_witness :
    ("Sorted/Sub" ≠ "" ∧ (parsePath "Sorted/Sub").isAbs = false ∧
      (parsePath "/abs/t").isAbs = true) ∧
    resolveTarget (parsePath "/home/u") (some "Sorted/Sub")
      = ⟨(parsePath "/home/u").isAbs,
         (parsePath "/home/u").parts ++ (parsePath "Sorted/Sub").parts⟩ ∧
    resolveTarget (parsePath "/home/u") (some "/abs/t") = parsePath "/abs/t" := by
  refine ⟨⟨by decide, by decide, by decide⟩, ?_, ?_⟩
  · exact (claim_C8_target_resolution (parsePath "/home/u") "Sorted/Sub").2.1
      (by decide) (by decide)
  · exact (claim_C8_target_resolution (parsePath "/home/u") "/abs/t").2.2 (by decide)

/-- C5 — Collision avoidance: the resolution returns the desired path
unchanged when it does not exist, and otherwise the first candidate of the
form `stem (i)extension` (respectively `stem (undone i)extension` during undo,
via the `mid` token) that does not exist at check time — a path differing from
the desired one only by the suffix inserted before the extension.  The
resolver is a pure function of the filesystem: it creates nothing. -/
theorem claim_C5_collision_avoidance (fs : FS) (dstf : PyPath) (mid : String) :
    (fs.existsP dstf = false → findAvail fs dstf mid = dstf) ∧
    (fs.existsP dstf = true →
      ∃ i, 1 ≤ i ∧ findAvail fs dstf mid = variantPath dstf mid i ∧
        fs.existsP (variantPath dstf mid i) = false ∧
        ∀ j, 1 ≤ j → j < i → fs.existsP (variantPath dstf mid j) = true) :=
  ⟨findAvail_of_free fs dstf mid, findAvail_of_taken fs dstf mid⟩

/-- C5 witness: with `/t/a.txt` and `/t/a (1).txt` both taken, the resolver
returns the first free variant. -/
theorem claim_C5_collision_avoidance_witness :
    (FS.existsP ⟨[(parsePath "/t/a.txt", EntryKind.file),
        (parsePath "/t/a (1).txt", EntryKind.file)]⟩ (parsePath "/t/a.txt") = true) ∧
    ∃ i, 1 ≤ i ∧
      findAvail ⟨[(parsePath "/t/a.txt", EntryKind.file),
        (parsePath "/t/a (1).txt", EntryKind.file)]⟩ (parsePath "/t/a.txt") ""
        = variantPath (parsePath "/t/a.txt") "" i ∧
      FS.existsP ⟨[(parsePath "/t/a.txt", EntryKind.file),
        (parsePath "/t/a (1).txt", EntryKind.file)]⟩
        (variantPath (parsePath "/t/a.txt") "" i) = false ∧
      ∀ j, 1 ≤ j → j < i →
        FS.existsP ⟨[(parsePath "/t/a.txt", EntryKind.file),
          (parsePath "/t/a (1).txt", EntryKind.file)]⟩
          (variantPath (parsePath "/t/a.txt") "" j) = true := by
  refine ⟨by decide, (claim_C5_collision_avoidance _ _ _).2 (by decide)⟩

/-! ## Helper lemmas about the executor -/

/-- When `mkdir` does not raise, one loop iteration always succeeds, writes
exactly one log line of the item's shape, extends the ledger by at most one
record (exactly one on a successful move, counted by `moved`), and accounts
the item in exactly one of the three counters. -/
theorem execItem_ok (env : Env) (idx : Nat) (st : ExecState) (it : PlanItem)
    (hmk : env.mkdirErr idx = none) :
    ∃ st1 line mv,
      execItem env idx st it = Except.ok st1 ∧
      st1.log = st.log ++ [line] ∧ lineForItem it line ∧
      st1.sessionMoves = st.sessionMoves ++ mv ∧
      st1.moved = st.moved + mv.length ∧ mv.length ≤ 1 ∧
      st1.moved + st1.skipped.length + st1.failed.length
        = st.moved + st.skipped.length + st.failed.length + 1 := by
  unfold execItem
  rw [hmk]
  by_cases hskip : (!env.resolveRaises idx && it.src == it.dest) = true
  · rw [if_pos hskip]
    refine ⟨_, _, [], rfl, rfl, Or.inr (Or.inl rfl), by simp, by simp, by simp, ?_⟩
    simp only [List.length_append, List.length_cons, List.length_nil]
    omega
  · rw [if_neg hskip]
    cases hmv : env.moveErr idx with
    | some e =>
        refine ⟨_, _, [], rfl, rfl, Or.inr (Or.inr ⟨_, _, _, rfl⟩), by simp, by simp,
          by simp, ?_⟩
        simp only [List.length_append, List.length_cons, List.length_nil]
        omega
    | none =>
        by_cases hex : FS.existsP (st.fs.mkdirParents it.dest.parent) it.src = true
        · rw [if_pos hex]
          refine ⟨_, _, [(findAvail (st.fs.mkdirParents it.dest.parent) it.dest "", it.src)],
            rfl, rfl, Or.inl ⟨_, rfl⟩, rfl, by simp, by simp, ?_⟩
          simp only [List.length_append, List.length_cons, List.length_nil]
          omega
        · rw [if_neg hex]
          refine ⟨_, _, [], rfl, rfl, Or.inr (Or.inr ⟨_, _, _, rfl⟩), by simp, by simp,
            by simp, ?_⟩
          simp only [List.length_append, List.length_cons, List.length_nil]
          omega

/-- Invariant of the whole executor loop when `mkdir` never raises: the loop
completes, appends one line per item (pointwise of the item's shape), extends
the ledger by exactly the successful moves (counted by `moved`), and every
item lands in exactly one of the three counters. -/
theorem execFold_ok (env : Env) (hmk : ∀ i, env.mkdirErr i = none) :
    ∀ (plan : List PlanItem) (idx : Nat) (st : ExecState),
      ∃ fin body newMoves,
        execFold env idx st plan = Except.ok fin ∧
        fin.log = st.log ++ body ∧
        List.Forall₂ lineForItem plan body ∧
        fin.sessionMoves = st.sessionMoves ++ newMoves ∧
        fin.moved = st.moved + newMoves.length ∧
        fin.moved + fin.skipped.length + fin.failed.length
          = st.moved + st.skipped.length + st.failed.length + plan.length := by
  intro plan
  induction plan with
  | nil =>
      intro idx st
      exact ⟨st, [], [], rfl, by simp, List.Forall₂.nil, by simp, by simp, by simp⟩
  | cons it rest ih =>
      intro idx st
      obtain ⟨st1, line, mv, heq, hlog, hline, hsess, hmoved, hmvle, hcount⟩ :=
        execItem_ok env idx st it (hmk idx)
      obtain ⟨fin, body, newMoves, hfold, hlog2, hforall, hsess2, hmoved2, hcount2⟩ :=
        ih (idx + 1) st1
      refine ⟨fin, line :: body, mv ++ newMoves, ?_, ?_, ?_, ?_, ?_, ?_⟩
      · show execFold env idx st (it :: rest) = Except.ok fin
        rw [execFold, heq]
        exact hfold
      · rw [hlog2, hlog, List.append_assoc]
        rfl
      · exact List.Forall₂.cons hline hforall
      · rw [hsess2, hsess, List.append_assoc]
      · rw [hmoved2, hmoved, List.length_append]
        omega
      · rw [List.length_cons]
        omega

/-- C1 (amended) — When no per-item destination-directory creation fails, the
batch never aborts: every item of the plan is processed (each lands in exactly
one of the moved/skipped/failed counters) and the moved count equals the
number of items whose move succeeded (the length of the new ledger).
The amendment relative to the original claim: `dstf.parent.mkdir(...)` is
called *outside* the per-item `try`, so a directory-creation failure is *not*
caught and aborts the batch (see the counterexample); only failures of the
`resolve` comparison and of `shutil.move` itself are caught, classified,
logged and isolated. -/
theorem claim_C1_failure_isolation (env : Env) (st : AppState)
    (hne : st.planned ≠ []) (hmk : ∀ i, env.mkdirErr i = none) :
    (applyMoves env st).2.aborted = false ∧
    (applyMoves env st).2.moved + (applyMoves env st).2.skipped.length +
        (applyMoves env st).2.failed.length = st.planned.length ∧
    (applyMoves env st).2.moved = (applyMoves env st).1.lastMoves.length := by
  obtain ⟨fin, body, newMoves, hfold, hlog, hforall, hsess, hmoved, hcount⟩ :=
    execFold_ok env hmk st.planned 0
      ⟨st.fs, 0, [], [], [], ["[Apply] " ++ env.ts ++ "\nSource: " ++
        st.selectedFolder.render ++ "\n\n"]⟩
  unfold applyMoves
  rw [if_neg (by simp [List.isEmpty_iff, hne])]
  rw [hfold]
  refine ⟨rfl, ?_, ?_⟩
  · simpa using hcount
  · show fin.moved = fin.sessionMoves.length
    rw [hsess, hmoved]
    simp

/-- C1 counterexample — the claim as stated is false: on a two-item plan where
the first item's destination parent directory cannot be created
(`PermissionError`), the batch aborts (`aborted = true`): the uncaught `mkdir`
exception propagates, the second item is never processed (the log holds only
the header line, no per-item lines), and nothing is moved even though the
second item's move would have succeeded. -/
theorem claim_C1_counterexample :
    (applyMoves
        ⟨"ts", fun i => if i = 0 then some "PermissionError" else none,
          fun _ => false, fun _ => none⟩
        ⟨⟨[(parsePath "/s/a.jpg", EntryKind.file),
           (parsePath "/s/b.pdf", EntryKind.file)]⟩,
         [⟨parsePath "/s/a.jpg", parsePath "/s/Organized/Images/a.jpg", "img"⟩,
          ⟨parsePath "/s/b.pdf", parsePath "/s/Organized/PDFs/b.pdf", "doc"⟩],
         [], parsePath "/s"⟩).2.aborted = true ∧
    (applyMoves
        ⟨"ts", fun i => if i = 0 then some "PermissionError" else none,
          fun _ => false, fun _ => none⟩
        ⟨⟨[(parsePath "/s/a.jpg", EntryKind.file),
           (parsePath "/s/b.pdf", EntryKind.file)]⟩,
         [⟨parsePath "/s/a.jpg", parsePath "/s/Organized/Images/a.jpg", "img"⟩,
          ⟨parsePath "/s/b.pdf", parsePath "/s/Organized/PDFs/b.pdf", "doc"⟩],
         [], parsePath "/s"⟩).2.log.length = 1 ∧
    (applyMoves
        ⟨"ts", fun i => if i = 0 then some "PermissionError" else none,
          fun _ => false, fun _ => none⟩
        ⟨⟨[(parsePath "/s/a.jpg", EntryKind.file),
           (parsePath "/s/b.pdf", EntryKind.file)]⟩,
         [⟨parsePath "/s/a.jpg", parsePath "/s/Organized/Images/a.jpg", "img"⟩,
          ⟨parsePath "/s/b.pdf", parsePath "/s/Organized/PDFs/b.pdf", "doc"⟩],
         [], parsePath "/s"⟩).2.moved = 0 := by
  refine ⟨by decide, by decide, by decide⟩

/-- C1 witness: on the spec's example scenario (both hypotheses hold), the
batch completes with full accounting. -/
theorem claim_C1_failure_isolation_witness :
    (([⟨parsePath "/s/a.jpg", parsePath "/s/Organized/Images/a.jpg", "img"⟩] :
        List PlanItem) ≠ []) ∧
    ((applyMoves ⟨"ts", fun _ => none, fun _ => false, fun _ => none⟩
        ⟨⟨[(parsePath "/s/a.jpg", EntryKind.file)]⟩,
         [⟨parsePath "/s/a.jpg", parsePath "/s/Organized/Images/a.jpg", "img"⟩],
         [], parsePath "/s"⟩).2.aborted = false ∧
      (applyMoves ⟨"ts", fun _ => none, fun _ => false, fun _ => none⟩
        ⟨⟨[(parsePath "/s/a.jpg", EntryKind.file)]⟩,
         [⟨parsePath "/s/a.jpg", parsePath "/s/Organized/Images/a.jpg", "img"⟩],
         [], parsePath "/s"⟩).2.moved +
        (applyMoves ⟨"ts", fun _ => none, fun _ => false, fun _ => none⟩
        ⟨⟨[(parsePath "/s/a.jpg", EntryKind.file)]⟩,
         [⟨parsePath "/s/a.jpg", parsePath "/s/Organized/Images/a.jpg", "img"⟩],
         [], parsePath "/s"⟩).2.skipped.length +
        (applyMoves ⟨"ts", fun _ => none, fun _ => false, fun _ => none⟩
        ⟨⟨[(parsePath "/s/a.jpg", EntryKind.file)]⟩,
         [⟨parsePath "/s/a.jpg", parsePath "/s/Organized/Images/a.jpg", "img"⟩],
         [], parsePath "/s"⟩).2.failed.length = 1 ∧
      (applyMoves ⟨"ts", fun _ => none, fun _ => false, fun _ => none⟩
        ⟨⟨[(parsePath "/s/a.jpg", EntryKind.file)]⟩,
         [⟨parsePath "/s/a.jpg", parsePath "/s/Organized/Images/a.jpg", "img"⟩],
         [], parsePath "/s"⟩).2.moved =
        (applyMoves ⟨"ts", fun _ => none, fun _ => false, fun _ => none⟩
        ⟨⟨[(parsePath "/s/a.jpg", EntryKind.file)]⟩,
         [⟨parsePath "/s/a.jpg", parsePath "/s/Organized/Images/a.jpg", "img"⟩],
         [], parsePath "/s"⟩).1.lastMoves.length) :=
  ⟨by decide, claim_C1_failure_isolation
    ⟨"ts", fun _ => none, fun _ => false, fun _ => none⟩
    ⟨⟨[(parsePath "/s/a.jpg", EntryKind.file)]⟩,
     [⟨parsePath "/s/a.jpg", parsePath "/s/Organized/Images/a.jpg", "img"⟩],
     [], parsePath "/s"⟩ (by decide) (fun _ => rfl)⟩

/-- C9 (amended) — An Executor invocation on a nonempty plan that completes
without a destination-directory-creation failure produces exactly one
timestamp-named log artifact (`logs/arranger_<ts>.txt`) whose content is: a
header with timestamp and source root, then one line per processed item tagged
`MOVED`/`SKIPPED`/`FAILED` carrying the item's paths (error detail on
failures), then a summary footer with the moved/skipped/failed counts; and it
replaces the held ledger with the new batch's ledger, which has exactly one
`(finalPath, originalPath)` record per successful move (its length is the
moved count).  The amendment relative to the original claim: an invocation
whose plan is empty returns early and creates no log artifact, and an aborted
invocation (uncaught `mkdir` failure, see C1) writes no footer and does not
replace the ledger — see the counterexample. -/
theorem claim_C9_log_and_ledger (env : Env) (st : AppState)
    (hne : st.planned ≠ []) (hmk : ∀ i, env.mkdirErr i = none) :
    ∃ body,
      (applyMoves env st).2.logPath =
        some ((parsePath "logs").div ("arranger_" ++ env.ts ++ ".txt")) ∧
      (applyMoves env st).2.log =
        ("[Apply] " ++ env.ts ++ "\nSource: " ++ st.selectedFolder.render ++ "\n\n")
          :: body ++ ["\nSUMMARY\n",
            "Moved: " ++ Nat.repr (applyMoves env st).2.moved ++ "  Skipped: " ++
              Nat.repr (applyMoves env st).2.skipped.length ++ "  Failed: " ++
              Nat.repr (applyMoves env st).2.failed.length ++ "\n"] ∧
      List.Forall₂ lineForItem st.planned body ∧
      (applyMoves env st).1.lastMoves.length = (applyMoves env st).2.moved := by
  obtain ⟨fin, body, newMoves, hfold, hlog, hforall, hsess, hmoved, hcount⟩ :=
    execFold_ok env hmk st.planned 0
      ⟨st.fs, 0, [], [], [], ["[Apply] " ++ env.ts ++ "\nSource: " ++
        st.selectedFolder.render ++ "\n\n"]⟩
  unfold applyMoves
  rw [if_neg (by simp [List.isEmpty_iff, hne])]
  rw [hfold]
  refine ⟨body, rfl, ?_, hforall, ?_⟩
  · show fin.log ++ ["\nSUMMARY\n",
        "Moved: " ++ Nat.repr fin.moved ++ "  Skipped: " ++
          Nat.repr fin.skipped.length ++ "  Failed: " ++
          Nat.repr fin.failed.length ++ "\n"] =
      ("[Apply] " ++ env.ts ++ "\nSource: " ++ st.selectedFolder.render ++ "\n\n")
        :: body ++ ["\nSUMMARY\n",
          "Moved: " ++ Nat.repr fin.moved ++ "  Skipped: " ++
            Nat.repr fin.skipped.length ++ "  Failed: " ++
            Nat.repr fin.failed.length ++ "\n"]
    rw [hlog]
    simp
  · show fin.sessionMoves.length = fin.moved
    rw [hsess, hmoved]
    simp

/-- C9 counterexample — the claim as stated is false: when the single item's
destination parent directory cannot be created, the invocation aborts; no
summary footer is written (the log holds only the header), and the previously
held ledger survives unreplaced even though the new batch has zero successful
moves (so the new batch's ledger would be empty). -/
theorem claim_C9_counterexample :
    (applyMoves
        ⟨"ts", fun _ => some "PermissionError", fun _ => false, fun _ => none⟩
        ⟨⟨[(parsePath "/s/a.jpg", EntryKind.file)]⟩,
         [⟨parsePath "/s/a.jpg", parsePath "/s/Organized/Images/a.jpg", "img"⟩],
         [(parsePath "/old/f.txt", parsePath "/old/o.txt")],
         parsePath "/s"⟩).2.moved = 0 ∧
    (applyMoves
        ⟨"ts", fun _ => some "PermissionError", fun _ => false, fun _ => none⟩
        ⟨⟨[(parsePath "/s/a.jpg", EntryKind.file)]⟩,
         [⟨parsePath "/s/a.jpg", parsePath "/s/Organized/Images/a.jpg", "img"⟩],
         [(parsePath "/old/f.txt", parsePath "/old/o.txt")],
         parsePath "/s"⟩).1.lastMoves =
      [(parsePath "/old/f.txt", parsePath "/old/o.txt")] ∧
    (applyMoves
        ⟨"ts", fun _ => some "PermissionError", fun _ => false, fun _ => none⟩
        ⟨⟨[(parsePath "/s/a.jpg", EntryKind.file)]⟩,
         [⟨parsePath "/s/a.jpg", parsePath "/s/Organized/Images/a.jpg", "img"⟩],
         [(parsePath "/old/f.txt", parsePath "/old/o.txt")],
         parsePath "/s"⟩).2.log = ["[Apply] ts\nSource: /s\n\n"] := by
  refine ⟨by decide, by decide, by decide⟩

/-- C9 witness: on a one-item plan with no failures, both hypotheses hold and
the characterization applies. -/
theorem claim_C9_log_and_ledger_witness :
    (([⟨parsePath "/s/a.jpg", parsePath "/s/Organized/Images/a.jpg", "img"⟩] :
        List PlanItem) ≠ []) ∧
    ∃ body,
      (applyMoves ⟨"ts", fun _ => none, fun _ => false, fun _ => none⟩
        ⟨⟨[(parsePath "/s/a.jpg", EntryKind.file)]⟩,
         [⟨parsePath "/s/a.jpg", parsePath "/s/Organized/Images/a.jpg", "img"⟩],
         [], parsePath "/s"⟩).2.logPath =
        some ((parsePath "logs").div ("arranger_" ++ "ts" ++ ".txt")) ∧
      (applyMoves ⟨"ts", fun _ => none, fun _ => false, fun _ => none⟩
        ⟨⟨[(parsePath "/s/a.jpg", EntryKind.file)]⟩,
         [⟨parsePath "/s/a.jpg", parsePath "/s/Organized/Images/a.jpg", "img"⟩],
         [], parsePath "/s"⟩).2.log =
        ("[Apply] " ++ "ts" ++ "\nSource: " ++ (parsePath "/s").render ++ "\n\n")
          :: body ++ ["\nSUMMARY\n",
            "Moved: " ++ Nat.repr (applyMoves
              ⟨"ts", fun _ => none, fun _ => false, fun _ => none⟩
              ⟨⟨[(parsePath "/s/a.jpg", EntryKind.file)]⟩,
               [⟨parsePath "/s/a.jpg", parsePath "/s/Organized/Images/a.jpg", "img"⟩],
               [], parsePath "/s"⟩).2.moved ++ "  Skipped: " ++
              Nat.repr (applyMoves
              ⟨"ts", fun _ => none, fun _ => false, fun _ => none⟩
              ⟨⟨[(parsePath "/s/a.jpg", EntryKind.file)]⟩,
               [⟨parsePath "/s/a.jpg", parsePath "/s/Organized/Images/a.jpg", "img"⟩],
               [], parsePath "/s"⟩).2.skipped.length ++ "  Failed: " ++
              Nat.repr (applyMoves
              ⟨"ts", fun _ => none, fun _ => false, fun _ => none⟩
              ⟨⟨[(parsePath "/s/a.jpg", EntryKind.file)]⟩,
               [⟨parsePath "/s/a.jpg", parsePath "/s/Organized/Images/a.jpg", "img"⟩],
               [], parsePath "/s"⟩).2.failed.length ++ "\n"] ∧
      List.Forall₂ lineForItem
        [⟨parsePath "/s/a.jpg", parsePath "/s/Organized/Images/a.jpg", "img"⟩] body ∧
      (applyMoves ⟨"ts", fun _ => none, fun _ => false, fun _ => none⟩
        ⟨⟨[(parsePath "/s/a.jpg", EntryKind.file)]⟩,
         [⟨parsePath "/s/a.jpg", parsePath "/s/Organized/Images/a.jpg", "img"⟩],
         [], parsePath "/s"⟩).1.lastMoves.length =
      (applyMoves ⟨"ts", fun _ => none, fun _ => false, fun _ => none⟩
        ⟨⟨[(parsePath "/s/a.jpg", EntryKind.file)]⟩,
         [⟨parsePath "/s/a.jpg", parsePath "/s/Organized/Images/a.jpg", "img"⟩],
         [], parsePath "/s"⟩).2.moved :=
  ⟨by decide, claim_C9_log_and_ledger
    ⟨"ts", fun _ => none, fun _ => false, fun _ => none⟩
    ⟨⟨[(parsePath "/s/a.jpg", EntryKind.file)]⟩,
     [⟨parsePath "/s/a.jpg", parsePath "/s/Organized/Images/a.jpg", "img"⟩],
     [], parsePath "/s"⟩ (by decide) (fun _ => rfl)⟩

/-! ## Helper lemmas about the undo engine -/

/-- Every undo iteration appends exactly one outcome, for the entry it
processed, and a restored outcome satisfies the restore-destination
description. -/
theorem undoItem_spec (env : Env) (idx : Nat) (st : UndoState)
    (entry : PyPath × PyPath) :
    ∃ out, (undoItem env idx st entry).items = st.items ++ [(entry, out)] ∧
      undoOutcomeOK entry out := by
  unfold undoItem
  cases hmk : env.mkdirErr idx with
  | some e =>
      exact ⟨UndoOutcome.failedU e, rfl, fun p b h => absurd h (by simp)⟩
  | none =>
      cases hmv : env.moveErr idx with
      | some e =>
          exact ⟨UndoOutcome.failedU e.errName, rfl, fun p b h => absurd h (by simp)⟩
      | none =>
          by_cases hex : FS.existsP (st.fs.mkdirParents entry.2.parent) entry.1 = true
          · rw [if_pos hex]
            refine ⟨_, rfl, ?_⟩
            intro p b h
            injection h with h1 h2
            constructor
            · intro hb
              rw [← h1]
              apply findAvail_of_free
              rw [h2, hb]
            · intro hb
              obtain ⟨i, hi1, heq, _, _⟩ := findAvail_of_taken
                (st.fs.mkdirParents entry.2.parent) entry.2 "undone " (by rw [h2, hb])
              exact ⟨i, hi1, by rw [← h1, heq]⟩
          · rw [if_neg hex]
            exact ⟨UndoOutcome.failedU "FileNotFoundError", rfl,
              fun p b h => absurd h (by simp)⟩

/-- Invariant of the undo loop: it records one outcome per ledger entry, in
processing order, each satisfying the restore-destination description. -/
theorem undoFold_spec (env : Env) :
    ∀ (entries : List (PyPath × PyPath)) (idx : Nat) (st : UndoState),
      ∃ outs, (undoFold env idx st entries).items = st.items ++ outs ∧
        outs.map Prod.fst = entries ∧
        ∀ pr ∈ outs, undoOutcomeOK pr.1 pr.2 := by
  intro entries
  induction entries with
  | nil =>
      intro idx st
      exact ⟨[], by simp [undoFold], rfl, by simp⟩
  | cons e rest ih =>
      intro idx st
      obtain ⟨out, hitem, hok⟩ := undoItem_spec env idx st e
      obtain ⟨outs, hfold, hmap, hall⟩ := ih (idx + 1) (undoItem env idx st e)
      refine ⟨(e, out) :: outs, ?_, ?_, ?_⟩
      · show (undoFold env (idx + 1) (undoItem env idx st e) rest).items = _
        rw [hfold, hitem, List.append_assoc]
        rfl
      · simp [hmap]
      · intro pr hpr
        rcases List.mem_cons.mp hpr with h | h
        · rw [h]; exact hok
        · exact hall pr h

/-- C2 — For every non-empty ledger, undo processes the ledger entries in
reverse order of the moves (the recorded processing order is exactly the
reversed ledger, so the last move is the first restored), and each
successfully restored file is moved from its `finalPath` back to a path that
is either exactly its `originalPath` (when that path was free) or, when
`originalPath` exists, a variant of the original disambiguated with the
undo-specific `"(undone N)"` token inserted before the extension. -/
theorem claim_C2_undo_reverse_restore (env : Env) (st : AppState)
    (h : st.lastMoves ≠ []) :
    ((undoMoves env st).2.items.map Prod.fst = st.lastMoves.reverse) ∧
    ∀ pr ∈ (undoMoves env st).2.items, undoOutcomeOK pr.1 pr.2 := by
  obtain ⟨outs, hitems, hmap, hall⟩ :=
    undoFold_spec env st.lastMoves.reverse 0 ⟨st.fs, 0, [], []⟩
  unfold undoMoves
  rw [if_neg (by simp [List.isEmpty_iff, h])]
  constructor
  · show (undoFold env 0 ⟨st.fs, 0, [], []⟩ st.lastMoves.reverse).items.map Prod.fst = _
    rw [hitems]
    simpa using hmap
  · intro pr hpr
    have hpr2 : pr ∈ (undoFold env 0 ⟨st.fs, 0, [], []⟩ st.lastMoves.reverse).items := hpr
    rw [hitems] at hpr2
    exact hall pr (by simpa using hpr2)

/-- C2 witness: undoing a two-entry ledger processes the entries in reverse
order, restoring each to its description-satisfying destination. -/
theorem claim_C2_undo_reverse_restore_witness :
    (([(parsePath "/s/Organized/Images/a.jpg", parsePath "/s/a.jpg"),
       (parsePath "/s/Organized/PDFs/b.pdf", parsePath "/s/b.pdf")] :
        List (PyPath × PyPath)) ≠ []) ∧
    ((undoMoves ⟨"ts", fun _ => none, fun _ => false, fun _ => none⟩
        ⟨⟨[(parsePath "/s/Organized/Images/a.jpg", EntryKind.file),
           (parsePath "/s/Organized/PDFs/b.pdf", EntryKind.file)]⟩, [],
         [(parsePath "/s/Organized/Images/a.jpg", parsePath "/s/a.jpg"),
          (parsePath "/s/Organized/PDFs/b.pdf", parsePath "/s/b.pdf")],
         parsePath "/s"⟩).2.items.map Prod.fst =
      ([(parsePath "/s/Organized/Images/a.jpg", parsePath "/s/a.jpg"),
        (parsePath "/s/Organized/PDFs/b.pdf", parsePath "/s/b.pdf")] :
         List (PyPath × PyPath)).reverse) ∧
    ∀ pr ∈ (undoMoves ⟨"ts", fun _ => none, fun _ => false, fun _ => none⟩
        ⟨⟨[(parsePath "/s/Organized/Images/a.jpg", EntryKind.file),
           (parsePath "/s/Organized/PDFs/b.pdf", EntryKind.file)]⟩, [],
         [(parsePath "/s/Organized/Images/a.jpg", parsePath "/s/a.jpg"),
          (parsePath "/s/Organized/PDFs/b.pdf", parsePath "/s/b.pdf")],
         parsePath "/s"⟩).2.items, undoOutcomeOK pr.1 pr.2 := by
  have h := claim_C2_undo_reverse_restore
    ⟨"ts", fun _ => none, fun _ => false, fun _ => none⟩
    ⟨⟨[(parsePath "/s/Organized/Images/a.jpg", EntryKind.file),
       (parsePath "/s/Organized/PDFs/b.pdf", EntryKind.file)]⟩, [],
     [(parsePath "/s/Organized/Images/a.jpg", parsePath "/s/a.jpg"),
      (parsePath "/s/Organized/PDFs/b.pdf", parsePath "/s/b.pdf")],
     parsePath "/s"⟩ (by decide)
  exact ⟨by decide, h.1, h.2⟩

/-- An undo call on a state with an empty ledger returns the state unchanged
with a "nothing to undo" report. -/
theorem undoMoves_empty (env : Env) (s : AppState) (h : s.lastMoves = []) :
    undoMoves env s = (s, ⟨true, 0, [], []⟩) := by
  unfold undoMoves
  rw [if_pos (by simp [h])]

/-- C6 — Undo on an empty ledger is a no-op reporting "nothing to undo" (the
state is returned untouched, not an error), and after any undo of a non-empty
ledger — regardless of per-item outcomes — the ledger is cleared, so a second
undo call with no intervening batch reports nothing to undo. -/
theorem claim_C6_nothing_to_undo (env env2 : Env) (st : AppState) :
    (st.lastMoves = [] → undoMoves env st = (st, ⟨true, 0, [], []⟩)) ∧
    (st.lastMoves ≠ [] →
      (undoMoves env st).2.nothingToUndo = false ∧
      (undoMoves env st).1.lastMoves = [] ∧
      (undoMoves env2 (undoMoves env st).1).2.nothingToUndo = true) := by
  constructor
  · exact undoMoves_empty env st
  · intro h
    have h1 : (undoMoves env st).1.lastMoves = [] := by
      unfold undoMoves
      rw [if_neg (by simp [List.isEmpty_iff, h])]
    refine ⟨?_, h1, ?_⟩
    · unfold undoMoves
      rw [if_neg (by simp [List.isEmpty_iff, h])]
    · rw [undoMoves_empty env2 _ h1]

/-- C6 witness: a one-entry ledger is cleared by undo and the second undo
reports nothing to undo; an empty ledger is a no-op from the start. -/
theorem claim_C6_nothing_to_undo_witness :
    (undoMoves ⟨"ts", fun _ => none, fun _ => false, fun _ => none⟩
      ⟨⟨[]⟩, [], [], parsePath "/s"⟩ =
      (⟨⟨[]⟩, [], [], parsePath "/s"⟩, ⟨true, 0, [], []⟩)) ∧
    (undoMoves ⟨"ts", fun _ => none, fun _ => false, fun _ => none⟩
      ⟨⟨[(parsePath "/t/f.txt", EntryKind.file)]⟩, [],
       [(parsePath "/t/f.txt", parsePath "/s/f.txt")],
       parsePath "/s"⟩).2.nothingToUndo = false ∧
    (undoMoves ⟨"ts", fun _ => none, fun _ => false, fun _ => none⟩
      ⟨⟨[(parsePath "/t/f.txt", EntryKind.file)]⟩, [],
       [(parsePath "/t/f.txt", parsePath "/s/f.txt")],
       parsePath "/s"⟩).1.lastMoves = [] ∧
    (undoMoves ⟨"ts2", fun _ => none, fun _ => false, fun _ => none⟩
      (undoMoves ⟨"ts", fun _ => none, fun _ => false, fun _ => none⟩
        ⟨⟨[(parsePath "/t/f.txt", EntryKind.file)]⟩, [],
         [(parsePath "/t/f.txt", parsePath "/s/f.txt")],
         parsePath "/s"⟩).1).2.nothingToUndo = true := by
  have h := claim_C6_nothing_to_undo
    ⟨"ts", fun _ => none, fun _ => false, fun _ => none⟩
    ⟨"ts2", fun _ => none, fun _ => false, fun _ => none⟩
    ⟨⟨[(parsePath "/t/f.txt", EntryKind.file)]⟩, [],
     [(parsePath "/t/f.txt", parsePath "/s/f.txt")], parsePath "/s"⟩
  obtain ⟨h2, h3, h4⟩ := h.2 (by decide)
  refine ⟨?_, h2, h3, ?_⟩
  · exact (claim_C6_nothing_to_undo
      ⟨"ts", fun _ => none, fun _ => false, fun _ => none⟩
      ⟨"ts", fun _ => none, fun _ => false, fun _ => none⟩
      ⟨⟨[]⟩, [], [], parsePath "/s"⟩).1 rfl
  · exact h4

end Arranger
